import Mathlib

/-!
A verification development for `scripts/bump_versions.py`, a release tool
that bumps version strings across a multi-package project.  The Python
source is embedded shallowly: strings become `List Char`, the filesystem
becomes a map from paths to optional contents, prints and file accesses are
recorded in explicit traces, and raised exceptions become an error result
carrying the state at the raise point.
-/

namespace BumpVersions

/-- Python strings are modelled as lists of characters. -/
abbrev Str := List Char

/-- The ASCII whitespace characters stripped by Python's `str.strip()`
(the unicode-only space classes do not occur in typed version strings). -/
def pyIsSpace (c : Char) : Bool :=
  c = ' ' || c = '\t' || c = '\n' || c = '\r' || c = '\x0b' || c = '\x0c'

/-- Python `str.strip()`: remove leading and trailing whitespace. -/
def strip (s : Str) : Str :=
  ((s.dropWhile pyIsSpace).reverse.dropWhile pyIsSpace).reverse

/-- Python `str.splitlines()` restricted to `'\n'` line separators (the
separator used by the text files this script rewrites).  A trailing
newline does not produce a final empty line. -/
def splitlines : Str → List Str
  | [] => []
  | c :: rest =>
    if c = '\n' then [] :: splitlines rest
    else
      match splitlines rest with
      | [] => [[c]]
      | l :: ls => (c :: l) :: ls

/-- The scanning loop of Python `str.replace` for a non-empty pattern,
with an explicit recursion bound: scan left to right, replace each
non-overlapping occurrence of `old` by `new`, never rescanning
replacement text.  A bound of `s.length` always suffices, since a match
consumes at least one character. -/
def pyReplaceF (old new : Str) : Nat → Str → Str
  | _, [] => []
  | 0, s => s
  | fuel + 1, c :: rest =>
    if old.isPrefixOf (c :: rest) ∧ old ≠ [] then
      new ++ pyReplaceF old new fuel ((c :: rest).drop old.length)
    else
      c :: pyReplaceF old new fuel rest

/-- The scanning loop of Python `str.replace` for a non-empty pattern. -/
def pyReplaceCore (old new s : Str) : Str :=
  pyReplaceF old new s.length s

/-- Python `str.replace(old, new)`.  For an empty pattern Python inserts
`new` before every character and at the end; otherwise it is the scanning
loop. -/
def pyReplace (old new s : Str) : Str :=
  if old.isEmpty then new ++ (s.map fun c => c :: new).flatten
  else pyReplaceCore old new s

/-- The splitting loop of Python `str.split(old)` for a non-empty
separator, with the same explicit recursion bound. -/
def pySplitF (old : Str) : Nat → Str → List Str
  | _, [] => [[]]
  | 0, s => [s]
  | fuel + 1, c :: rest =>
    if old.isPrefixOf (c :: rest) ∧ old ≠ [] then
      [] :: pySplitF old fuel ((c :: rest).drop old.length)
    else
      match pySplitF old fuel rest with
      | [] => [[c]]
      | l :: ls => (c :: l) :: ls

/-- Python `str.split(old)` for a non-empty separator: the pieces of the
string between consecutive non-overlapping occurrences of `old`, scanning
left to right. -/
def pySplit (old s : Str) : List Str :=
  pySplitF old s.length s

/-- Any bound of at least `s.length` gives the same replacement scan. -/
theorem pyReplaceF_fuel (old new : Str) :
    ∀ (n m : Nat) (s : Str), s.length ≤ n → s.length ≤ m →
      pyReplaceF old new n s = pyReplaceF old new m s := by
  intro n
  induction n with
  | zero =>
    intro m s hn _
    have : s = [] := List.length_eq_zero.mp (Nat.le_zero.mp hn)
    subst this
    cases m <;> rfl
  | succ n ih =>
    intro m s hn hm
    cases s with
    | nil => cases m <;> rfl
    | cons c rest =>
      cases m with
      | zero => simp at hm
      | succ m =>
        rw [pyReplaceF, pyReplaceF]
        by_cases h : old.isPrefixOf (c :: rest) ∧ old ≠ []
        · rw [if_pos h, if_pos h]
          have hlen : ((c :: rest).drop old.length).length ≤ n ∧
              ((c :: rest).drop old.length).length ≤ m := by
            have : 0 < old.length := List.length_pos.mpr h.2
            simp only [List.length_drop, List.length_cons]
            simp only [List.length_cons] at hn hm
            omega
          rw [ih m _ hlen.1 hlen.2]
        · rw [if_neg h, if_neg h]
          have hlen : rest.length ≤ n ∧ rest.length ≤ m := by
            simp only [List.length_cons] at hn hm
            omega
          rw [ih m rest hlen.1 hlen.2]

/-- Any bound of at least `s.length` gives the same splitting scan. -/
theorem pySplitF_fuel (old : Str) :
    ∀ (n m : Nat) (s : Str), s.length ≤ n → s.length ≤ m →
      pySplitF old n s = pySplitF old m s := by
  intro n
  induction n with
  | zero =>
    intro m s hn _
    have : s = [] := List.length_eq_zero.mp (Nat.le_zero.mp hn)
    subst this
    cases m <;> rfl
  | succ n ih =>
    intro m s hn hm
    cases s with
    | nil => cases m <;> rfl
    | cons c rest =>
      cases m with
      | zero => simp at hm
      | succ m =>
        rw [pySplitF, pySplitF]
        by_cases h : old.isPrefixOf (c :: rest) ∧ old ≠ []
        · rw [if_pos h, if_pos h]
          have hlen : ((c :: rest).drop old.length).length ≤ n ∧
              ((c :: rest).drop old.length).length ≤ m := by
            have : 0 < old.length := List.length_pos.mpr h.2
            simp only [List.length_drop, List.length_cons]
            simp only [List.length_cons] at hn hm
            omega
          rw [ih m _ hlen.1 hlen.2]
        · rw [if_neg h, if_neg h]
          have hlen : rest.length ≤ n ∧ rest.length ≤ m := by
            simp only [List.length_cons] at hn hm
            omega
          rw [ih m rest hlen.1 hlen.2]

/-- Unfolding the scan at the empty string. -/
theorem pyReplaceCore_nil (old new : Str) : pyReplaceCore old new [] = [] := rfl

/-- Unfolding the scan one character at a time. -/
theorem pyReplaceCore_cons (old new : Str) (c : Char) (rest : Str) :
    pyReplaceCore old new (c :: rest) =
      if old.isPrefixOf (c :: rest) ∧ old ≠ [] then
        new ++ pyReplaceCore old new ((c :: rest).drop old.length)
      else
        c :: pyReplaceCore old new rest := by
  rw [pyReplaceCore, List.length_cons, pyReplaceF]
  by_cases h : old.isPrefixOf (c :: rest) ∧ old ≠ []
  · rw [if_pos h, if_pos h, pyReplaceCore]
    congr 1
    apply pyReplaceF_fuel
    · have : 0 < old.length := List.length_pos.mpr h.2
      simp only [List.length_drop, List.length_cons]
      omega
    · exact le_rfl
  · rw [if_neg h, if_neg h, pyReplaceCore]

/-- Unfolding the split at the empty string. -/
theorem pySplit_nil (old : Str) : pySplit old [] = [[]] := rfl

/-- Unfolding the split one character at a time. -/
theorem pySplit_cons (old : Str) (c : Char) (rest : Str) :
    pySplit old (c :: rest) =
      if old.isPrefixOf (c :: rest) ∧ old ≠ [] then
        [] :: pySplit old ((c :: rest).drop old.length)
      else
        match pySplit old rest with
        | [] => [[c]]
        | l :: ls => (c :: l) :: ls := by
  rw [pySplit, List.length_cons, pySplitF]
  by_cases h : old.isPrefixOf (c :: rest) ∧ old ≠ []
  · rw [if_pos h, if_pos h, pySplit]
    congr 1
    apply pySplitF_fuel
    · have : 0 < old.length := List.length_pos.mpr h.2
      simp only [List.length_drop, List.length_cons]
      omega
    · exact le_rfl
  · rw [if_neg h, if_neg h, pySplit]

/-- The literal `\x7bversion\x7d` replacement-field of the templates. -/
def placeholderSlot : Str := "\x7bversion\x7d".toList

/-- The `template.format(version=v)` for templates whose only replacement
field is the version slot (true of every template in this script):
substitute `v` for each occurrence of the slot. -/
def formatVersion (template v : Str) : Str :=
  pyReplace placeholderSlot v template

/-! ### Properties of the replacement scan -/

/-- If the pattern does not occur in the string, the scan is the
identity. -/
theorem pyReplaceCore_noOccurrence (old new : Str) :
    ∀ s : Str, ¬ old <:+: s → pyReplaceCore old new s = s := by
  intro s
  induction s with
  | nil => intro _; rw [pyReplaceCore_nil]
  | cons c rest ih =>
    intro h
    rw [pyReplaceCore_cons]
    have hpre : ¬ (old.isPrefixOf (c :: rest) ∧ old ≠ []) := by
      rintro ⟨hp, -⟩
      exact h ( List.isPrefixOf_iff_prefix.mp hp).isInfix
    rw [if_neg hpre]
    rw [ih fun hi => h (List.infix_cons hi)]

/-- If the pattern occurs first at offset `a.length`, the scan copies `a`,
replaces that occurrence, and continues after it. -/
theorem pyReplaceCore_firstMatch (old new : Str) (hne : old ≠ []) :
    ∀ a b : Str, ¬ old <:+: (a ++ old.dropLast) →
      pyReplaceCore old new (a ++ old ++ b) = a ++ new ++ pyReplaceCore old new b := by
  intro a
  induction a with
  | nil =>
    intro b _
    obtain ⟨o, os, rfl⟩ : ∃ o os, old = o :: os := by
      cases old with
      | nil => exact absurd rfl hne
      | cons o os => exact ⟨o, os, rfl⟩
    simp only [List.nil_append]
    rw [List.cons_append, pyReplaceCore_cons]
    have hp : (o :: os).isPrefixOf (o :: os ++ b) :=
      List.isPrefixOf_iff_prefix.mpr ((o :: os).prefix_append b)
    rw [if_pos ⟨by simpa using hp, hne⟩]
    simp only [← List.cons_append, List.drop_left]
  | cons c a' ih =>
    intro b hfirst
    have hlen : old.length ≤ ((c :: a') ++ old.dropLast).length := by
      simp only [List.length_append, List.length_cons, List.length_dropLast]
      have : 0 < old.length := List.length_pos.mpr hne
      omega
    have hsub : (c :: a') ++ old.dropLast <+: (c :: a') ++ old ++ b := by
      rw [List.append_assoc]
      exact (List.prefix_append_right_inj (c :: a')).mpr
        ( List.dropLast_prefix old |>.trans (old.prefix_append b))
    have hcond : ¬ (old.isPrefixOf ((c :: a') ++ old ++ b) ∧ old ≠ []) := by
      rintro ⟨hp, -⟩
      have hp' := List.isPrefixOf_iff_prefix.mp hp
      exact hfirst (List.prefix_of_prefix_length_le hp' hsub hlen).isInfix
    have hfirst' : ¬ old <:+: (a' ++ old.dropLast) := by
      intro hi
      exact hfirst (List.infix_cons hi)
    calc pyReplaceCore old new ((c :: a') ++ old ++ b)
        = pyReplaceCore old new (c :: (a' ++ old ++ b)) := by
          simp [List.cons_append]
      _ = c :: pyReplaceCore old new (a' ++ old ++ b) := by
          rw [pyReplaceCore_cons, if_neg (by simpa [List.cons_append] using hcond)]
      _ = c :: (a' ++ new ++ pyReplaceCore old new b) := by rw [ih b hfirst']
      _ = (c :: a') ++ new ++ pyReplaceCore old new b := by simp [List.cons_append]

/-- A unique, cleanly placed occurrence is replaced and nothing else
changes. -/
theorem pyReplace_single (old new a b : Str)
    (hfirst : ¬ old <:+: (a ++ old.dropLast)) (hlast : ¬ old <:+: b) :
    pyReplace old new (a ++ old ++ b) = a ++ new ++ b := by
  have hne : old ≠ [] := by
    rintro rfl
    exact hfirst List.nil_infix
  rw [pyReplace, if_neg (by simpa using hne),
    pyReplaceCore_firstMatch old new hne a b hfirst,
    pyReplaceCore_noOccurrence old new b hlast]

theorem pySplit_ne_nil (old : Str) : ∀ s : Str, pySplit old s ≠ [] := by
  intro s
  cases s with
  | nil => rw [pySplit_nil]; simp
  | cons c rest =>
    rw [pySplit_cons]
    by_cases h : old.isPrefixOf (c :: rest) ∧ old ≠ []
    · rw [if_pos h]; simp
    · rw [if_neg h]
      cases pySplit old rest <;> simp

/-- The `intercalate` peels the head character off the first piece. -/
theorem intercalate_cons_head (sep : Str) (c : Char) (l : Str) :
    ∀ ls : List Str,
      List.intercalate sep ((c :: l) :: ls) = c :: List.intercalate sep (l :: ls) := by
  intro ls
  cases ls with
  | nil => simp [List.intercalate]
  | cons l' ls' => simp [List.intercalate, List.intersperse]

/-- The `intercalate` on two or more pieces inserts the separator after the
first piece. -/
theorem intercalate_cons_cons (sep x y : Str) (ys : List Str) :
    List.intercalate sep (x :: y :: ys) = x ++ sep ++ List.intercalate sep (y :: ys) := by
  simp [List.intercalate, List.intersperse]

/-- Python's identity `s.replace(old, new) == new.join(s.split(old))` for
a non-empty pattern: the scan replaces every occurrence of `old`,
splitting the text at each occurrence and rejoining with `new`. -/
theorem pyReplaceCore_eq_intercalate (old new : Str) (hne : old ≠ []) :
    ∀ s : Str, pyReplaceCore old new s = List.intercalate new (pySplit old s) := by
  have H : ∀ n : Nat, ∀ s : Str, s.length ≤ n →
      pyReplaceCore old new s = List.intercalate new (pySplit old s) := by
    intro n
    induction n with
    | zero =>
      intro s hs
      have : s = [] := List.length_eq_zero.mp (Nat.le_zero.mp hs)
      subst this
      simp [pyReplaceCore_nil, pySplit_nil, List.intercalate]
    | succ n ih =>
      intro s hs
      cases s with
      | nil => simp [pyReplaceCore_nil, pySplit_nil, List.intercalate]
      | cons c rest =>
        by_cases h : old.isPrefixOf (c :: rest) ∧ old ≠ []
        · rw [pyReplaceCore_cons, if_pos h, pySplit_cons, if_pos h]
          have hlen : ((c :: rest).drop old.length).length ≤ n := by
            simp only [List.length_drop, List.length_cons]
            have : 0 < old.length := List.length_pos.mpr hne
            simp only [List.length_cons] at hs
            omega
          rw [ih _ hlen]
          obtain ⟨l, ls, hls⟩ : ∃ l ls, pySplit old ((c :: rest).drop old.length) = l :: ls := by
            cases hmt : pySplit old ((c :: rest).drop old.length) with
            | nil => exact absurd hmt (pySplit_ne_nil old _)
            | cons l ls => exact ⟨l, ls, rfl⟩
          rw [hls, intercalate_cons_cons]
          simp
        · rw [pyReplaceCore_cons, if_neg h, pySplit_cons, if_neg h]
          have hlen : rest.length ≤ n := by
            simp only [List.length_cons] at hs
            omega
          rw [ih rest hlen]
          obtain ⟨l, ls, hls⟩ : ∃ l ls, pySplit old rest = l :: ls := by
            cases hmt : pySplit old rest with
            | nil => exact absurd hmt (pySplit_ne_nil old rest)
            | cons l ls => exact ⟨l, ls, rfl⟩
          rw [hls, intercalate_cons_head]
  intro s
  exact H s.length s le_rfl

/-! ### A model of `difflib` as used by the script

The script renders dry-run previews with `difflib.context_diff`.  The
matcher below is `difflib.SequenceMatcher` with no junk heuristic, which
coincides with the library on the inputs previewed here (the autojunk
heuristic only engages for sequences of 200 or more lines). -/

/-- Length of the longest common prefix of two lists. -/
def commonLen [DecidableEq α] : List α → List α → Nat
  | a :: as, b :: bs => if a = b then commonLen as bs + 1 else 0
  | _, _ => 0

/-- The `SequenceMatcher.find_longest_match` on the ranges `[alo, ahi)` and
`[blo, bhi)`: the longest matching block, ties resolved to the earliest
start in `a` and then the earliest start in `b`; `(alo, blo, 0)` when
there is no match at all. -/
def findLongestMatch [DecidableEq α] (a b : List α) (alo ahi blo bhi : Nat) :
    Nat × Nat × Nat :=
  (List.range' alo (ahi - alo)).foldl (fun best i =>
    (List.range' blo (bhi - blo)).foldl (fun best j =>
      let k := min (commonLen (a.drop i) (b.drop j)) (min (ahi - i) (bhi - j))
      if best.2.2 < k then (i, j, k) else best) best) (alo, blo, 0)

/-- The recursive collection of matching blocks around each longest match.
The fuel argument only bounds the recursion depth; `a.length + b.length + 1`
always suffices. -/
def matchingBlocksAux [DecidableEq α] (a b : List α) :
    Nat → Nat → Nat → Nat → Nat → List (Nat × Nat × Nat)
  | 0, _, _, _, _ => []
  | fuel + 1, alo, ahi, blo, bhi =>
    let m := findLongestMatch a b alo ahi blo bhi
    if 0 < m.2.2 then
      matchingBlocksAux a b fuel alo m.1 blo m.2.1 ++
        m :: matchingBlocksAux a b fuel (m.1 + m.2.2) ahi (m.2.1 + m.2.2) bhi
    else []

/-- The final pass of `get_matching_blocks`: merge adjacent blocks and
drop empty ones. -/
def mergeBlocks : Nat × Nat × Nat → List (Nat × Nat × Nat) → List (Nat × Nat × Nat)
  | (i1, j1, k1), [] => if k1 ≠ 0 then [(i1, j1, k1)] else []
  | (i1, j1, k1), (i2, j2, k2) :: rest =>
    if i1 + k1 = i2 ∧ j1 + k1 = j2 then mergeBlocks (i1, j1, k1 + k2) rest
    else if k1 ≠ 0 then (i1, j1, k1) :: mergeBlocks (i2, j2, k2) rest
    else mergeBlocks (i2, j2, k2) rest

/-- The `SequenceMatcher.get_matching_blocks`, ending with the sentinel
`(len(a), len(b), 0)`. -/
def getMatchingBlocks [DecidableEq α] (a b : List α) : List (Nat × Nat × Nat) :=
  mergeBlocks (0, 0, 0)
      (matchingBlocksAux a b (a.length + b.length + 1) 0 a.length 0 b.length) ++
    [(a.length, b.length, 0)]

/-- The opcode tags of `SequenceMatcher.get_opcodes`. -/
inductive DTag where
  | replace
  | delete
  | insert
  | equal
  deriving DecidableEq, Inhabited

/-- One opcode of `SequenceMatcher.get_opcodes`: transform `a[i1:i2]`
into `b[j1:j2]`. -/
structure DOp where
  tag : DTag
  i1 : Nat
  i2 : Nat
  j1 : Nat
  j2 : Nat
  deriving DecidableEq, Inhabited

/-- The `SequenceMatcher.get_opcodes`, read off the matching blocks. -/
def opcodesFrom : Nat → Nat → List (Nat × Nat × Nat) → List DOp
  | _, _, [] => []
  | i, j, (ai, bj, size) :: rest =>
    (if i < ai ∧ j < bj then [DOp.mk DTag.replace i ai j bj]
     else if i < ai then [DOp.mk DTag.delete i ai j bj]
     else if j < bj then [DOp.mk DTag.insert i ai j bj]
     else []) ++
    (if 0 < size then [DOp.mk DTag.equal ai (ai + size) bj (bj + size)] else []) ++
    opcodesFrom (ai + size) (bj + size) rest

/-- The `SequenceMatcher.get_opcodes`. -/
def getOpcodes [DecidableEq α] (a b : List α) : List DOp :=
  opcodesFrom 0 0 (getMatchingBlocks a b)

/-- The main loop of `get_grouped_opcodes`: split at equal runs longer
than `2n`, keeping `n` lines of context on each side; a trailing group
that is a single equal opcode is not emitted. -/
def groupLoop (n : Nat) : List DOp → List DOp → List (List DOp)
  | group, [] =>
    if group ≠ [] ∧ ¬ (group.length = 1 ∧ group.headI.tag = DTag.equal) then [group]
    else []
  | group, op :: rest =>
    if op.tag = DTag.equal ∧ n + n < op.i2 - op.i1 then
      (group ++ [DOp.mk DTag.equal op.i1 (min op.i2 (op.i1 + n)) op.j1 (min op.j2 (op.j1 + n))]) ::
        groupLoop n [DOp.mk DTag.equal (max op.i1 (op.i2 - n)) op.i2 (max op.j1 (op.j2 - n)) op.j2] rest
    else groupLoop n (group ++ [op])  rest

/-- The `SequenceMatcher.get_grouped_opcodes n`: clamp the leading and
trailing equal runs to `n` context lines, then split into groups. -/
def groupedOpcodes (n : Nat) (codes0 : List DOp) : List (List DOp) :=
  let codes1 := if codes0 = [] then [DOp.mk DTag.equal 0 1 0 1] else codes0
  let codes2 :=
    match codes1 with
    | [] => []
    | op :: rest =>
      if op.tag = DTag.equal then
        DOp.mk op.tag (max op.i1 (op.i2 - n)) op.i2 (max op.j1 (op.j2 - n)) op.j2 :: rest
      else op :: rest
  let codes3 :=
    match codes2.getLast? with
    | none => []
    | some op =>
      if op.tag = DTag.equal then
        codes2.dropLast ++ [DOp.mk op.tag op.i1 (min op.i2 (op.i1 + n)) op.j1 (min op.j2 (op.j1 + n))]
      else codes2
  groupLoop n [] codes3

/-- Decimal rendering of a line number. -/
def natStr (n : Nat) : Str := (toString n).toList

/-- The `difflib._format_range_context`. -/
def formatRangeContext (start stop : Nat) : Str :=
  let length := stop - start
  let beginning := if length = 0 then start else start + 1
  if length ≤ 1 then natStr beginning
  else natStr beginning ++ ",".toList ++ natStr (start + length)

/-- The `difflib._format_range_unified`. -/
def formatRangeUnified (start stop : Nat) : Str :=
  let length := stop - start
  if length = 1 then natStr (start + 1)
  else
    let beginning := if length = 0 then start else start + 1
    natStr beginning ++ ",".toList ++ natStr length

/-- The two-character line markers of the context format. -/
def ctxMarker : DTag → Str
  | DTag.insert => "+ ".toList
  | DTag.delete => "- ".toList
  | DTag.replace => "! ".toList
  | DTag.equal => "  ".toList

/-- A single newline character. -/
def nlStr : Str := "\n".toList

/-- The `a[i1:i2]`. -/
def slice (l : List α) (i1 i2 : Nat) : List α := (l.drop i1).take (i2 - i1)

/-- The `difflib.context_diff(a, b, fromfile, tofile, n)` with the default
`lineterm="\n"`, so header and hunk-marker lines carry a trailing newline
while content lines do not, exactly as the library emits them. -/
def contextDiff (a b : List Str) (fromfile tofile : Str) (n : Nat) : List Str :=
  match groupedOpcodes n (getOpcodes a b) with
  | [] => []
  | g :: gs =>
    ("*** ".toList ++ fromfile ++ nlStr) :: ("--- ".toList ++ tofile ++ nlStr) ::
      (g :: gs).flatMap (fun group =>
        let first := group.headI
        let last := group.getLastI
        let part1 :=
          if group.any (fun op => op.tag = DTag.replace ∨ op.tag = DTag.delete) then
            group.flatMap (fun op =>
              if op.tag ≠ DTag.insert then
                (slice a op.i1 op.i2).map (fun l => ctxMarker op.tag ++ l)
              else [])
          else []
        let part2 :=
          if group.any (fun op => op.tag = DTag.replace ∨ op.tag = DTag.insert) then
            group.flatMap (fun op =>
              if op.tag ≠ DTag.delete then
                (slice b op.j1 op.j2).map (fun l => ctxMarker op.tag ++ l)
              else [])
          else []
        ("***************".toList ++ nlStr) ::
          ("*** ".toList ++ formatRangeContext first.i1 last.i2 ++ " ****".toList ++ nlStr) ::
          (part1 ++
            ("--- ".toList ++ formatRangeContext first.j1 last.j2 ++ " ----".toList ++ nlStr) ::
            part2))

/-- The `difflib.unified_diff(a, b, fromfile, tofile, n)` with the default
`lineterm="\n"`; the reading of the spec's "unified-style textual diff"
against which the dry-run preview is compared. -/
def unifiedDiff (a b : List Str) (fromfile tofile : Str) (n : Nat) : List Str :=
  match groupedOpcodes n (getOpcodes a b) with
  | [] => []
  | g :: gs =>
    ("--- ".toList ++ fromfile ++ nlStr) :: ("+++ ".toList ++ tofile ++ nlStr) ::
      (g :: gs).flatMap (fun group =>
        let first := group.headI
        let last := group.getLastI
        ("@@ -".toList ++ formatRangeUnified first.i1 last.i2 ++ " +".toList ++
            formatRangeUnified first.j1 last.j2 ++ " @@".toList ++ nlStr) ::
          group.flatMap (fun op =>
            if op.tag = DTag.equal then (slice a op.i1 op.i2).map (fun l => ' ' :: l)
            else
              (if op.tag = DTag.replace ∨ op.tag = DTag.delete then
                (slice a op.i1 op.i2).map (fun l => '-' :: l)
              else []) ++
              (if op.tag = DTag.replace ∨ op.tag = DTag.insert then
                (slice b op.j1 op.j2).map (fun l => '+' :: l)
              else [])))

/-! ### The program state -/

/-- The observable state: the filesystem (paths to optional contents),
pending standard-input lines, and traces of everything printed, every
file opened for reading, and every file written. -/
structure Sys where
  fs : String → Option Str
  stdin : List Str
  out : List Str
  reads : List String
  writes : List String

/-- Raised exceptions: the changelog guard of `change_version`, a missing
file in `read_text`, the dictionary lookup `PACKAGES[key]`, `input()` at
end of input, and the argument-pairing asserts. -/
inductive Err where
  | missingChangelog (version : Str)
  | fileNotFound (path : String)
  | keyError (key : String)
  | eofError
  | assertionError
  deriving DecidableEq

/-- The result of running a statement: normal completion or a raised
exception, each carrying the state at that point (effects made before a
raise persist, as in Python). -/
inductive RRes where
  | ok (σ : Sys)
  | err (e : Err) (σ : Sys)

/-- The state reached, whether or not an exception was raised. -/
def RRes.state : RRes → Sys
  | RRes.ok σ => σ
  | RRes.err _ σ => σ

/-- True when the statement completed without raising. -/
def RRes.isOk : RRes → Bool
  | RRes.ok _ => true
  | RRes.err _ _ => false

/-- The `path.read_text()`: record the open, return the content if the file
exists. -/
def readText (p : String) (σ : Sys) : Option Str × Sys :=
  (σ.fs p, { σ with reads := σ.reads ++ [p] })

/-- The `path.write_text(content)`: record the write and update the file. -/
def writeText (p : String) (content : Str) (σ : Sys) : Sys :=
  { σ with
    fs := fun q => if q = p then some content else σ.fs q
    writes := σ.writes ++ [p] }

/-- The `print(s)`: emit `s` with a trailing newline. -/
def printLine (s : Str) (σ : Sys) : Sys :=
  { σ with out := σ.out ++ [s ++ nlStr] }

/-! ### The script -/

/-- One place a version string occurs: a file and the template whose
rendering is kept in sync there. -/
structure VersionLocation where
  path : String
  template : Str
  deriving DecidableEq

/-- One independently versioned package: display name, current version,
and every location of that version string. -/
structure PackageVersionInfo where
  name : Str
  current_version : Str
  locations : List VersionLocation
  deriving DecidableEq

/-- Modelled from the spec: the module `integrity` (code of this
repository that is not under `src/`) exposes the changelog path
`CHANGELOG` and the pipeline path `PIPE_FILE` that the script imports;
the spec describes them as "a changelog document" and "a pipeline/config
file".  They are carried as configuration. -/
structure Config where
  changelog : String
  pipeline : String

/-- The new content computed by `replace_version`:
`old_content.replace(template.format(version=old), template.format(version=new))`. -/
def computeNewContent (template old new content : Str) : Str :=
  pyReplace (formatVersion template old) (formatVersion template new) content

/-- The `replace_version(path, template, old, new, dry)`: read the file and
replace the rendered old version by the rendered new version everywhere;
in dry mode print a summary header and the context diff of the proposed
change (the registry paths are all relative, so `relative_to` is the
identity on them), otherwise write the new content back. -/
def replace_version (path : String) (template : Str) (old new : Str) (dry : Bool)
    (σ : Sys) : RRes :=
  match readText path σ with
  | (none, σ1) => RRes.err (Err.fileNotFound path) σ1
  | (some old_content, σ1) =>
    let new_content := computeNewContent template old new old_content
    if dry then
      let diff := contextDiff (splitlines old_content) (splitlines new_content)
        "current".toList "new (proposed update)".toList 4
      let σ2 := printLine ("\n## Summary of changes proposed to ".toList ++ path.toList) σ1
      let σ3 := printLine (List.intercalate nlStr diff ++ nlStr) σ2
      RRes.ok σ3
    else
      RRes.ok (writeText path new_content σ1)

/-- The per-location loop of `change_version`. -/
def changeLocations (old new : Str) (dry : Bool) : List VersionLocation → Sys → RRes
  | [], σ => RRes.ok σ
  | loc :: rest, σ =>
    match replace_version loc.path loc.template old new dry σ with
    | RRes.ok σ' => changeLocations old new dry rest σ'
    | RRes.err e σ' => RRes.err e σ'

/-- The `PackageVersionInfo.change_version`: read the changelog, raise if the
new version is not a substring of it, then update every location in
order. -/
def change_version (cfg : Config) (pkg : PackageVersionInfo) (new_version : Str)
    (dry : Bool) (σ : Sys) : RRes :=
  match readText cfg.changelog σ with
  | (none, σ1) => RRes.err (Err.fileNotFound cfg.changelog) σ1
  | (some changelog, σ1) =>
    if new_version <:+: changelog then
      changeLocations pkg.current_version new_version dry pkg.locations σ1
    else
      RRes.err (Err.missingChangelog new_version) σ1

/-- The prompt printed by `input(...)` (no trailing newline). -/
def promptOut : Str := "Change it to [default=skip]: ".toList

/-- The text of `print(f"Current ... version is: ...")`, before the
newline added by `print`. -/
def currentLine (pkg : PackageVersionInfo) : Str :=
  "Current ".toList ++ pkg.name ++ " version is: ".toList ++ pkg.current_version

/-- The `input(prompt)`: print the prompt without a newline, then consume one
line of standard input, or raise `EOFError` when it is exhausted. -/
def inputLine (prompt : Str) (σ : Sys) : Option Str × Sys :=
  match σ.stdin with
  | [] => (none, { σ with out := σ.out ++ [prompt] })
  | line :: rest => (some line, { σ with out := σ.out ++ [prompt], stdin := rest })

/-- The `PackageVersionInfo.maybe_change_version`: show the current version,
prompt for a replacement, skip on an empty stripped response, otherwise
change to the stripped response. -/
def maybe_change_version (cfg : Config) (pkg : PackageVersionInfo) (dry : Bool)
    (σ : Sys) : RRes :=
  let σ1 := printLine (currentLine pkg) σ
  match inputLine promptOut σ1 with
  | (none, σ2) => RRes.err Err.eofError σ2
  | (some line, σ2) =>
    let version := strip line
    if version ≠ [] then change_version cfg pkg version dry σ2
    else RRes.ok σ2

/-- The `update_versions(dry)`: visit every package in registry order. -/
def update_versions (cfg : Config) : List PackageVersionInfo → Bool → Sys → RRes
  | [], _, σ => RRes.ok σ
  | pkg :: rest, dry, σ =>
    match maybe_change_version cfg pkg dry σ with
    | RRes.ok σ' => update_versions cfg rest dry σ'
    | RRes.err e σ' => RRes.err e σ'

/-- The parsed command line. -/
structure Args where
  dry : Bool
  package : Option String
  version : Option Str

/-- Python truthiness of `args.package`: `None` and `""` are falsy. -/
def pyTruthyS (o : Option String) : Bool :=
  match o with
  | some s => !(s == "")
  | none => false

/-- Python truthiness of `args.version`. -/
def pyTruthyL (o : Option Str) : Bool :=
  match o with
  | some s => !s.isEmpty
  | none => false

/-- The `PACKAGES[key]`: ordered dictionary lookup. -/
def dictGet (key : String) : List (String × PackageVersionInfo) → Option PackageVersionInfo
  | [] => none
  | (k, v) :: rest => if k = key then some v else dictGet key rest

/-- The `__main__` block: the two argument-pairing asserts, then either
the single-package path (registry lookup followed by one
`change_version`) or the interactive path over every package. -/
def mainRun (cfg : Config) (packages : List (String × PackageVersionInfo))
    (args : Args) (σ : Sys) : RRes :=
  if pyTruthyS args.package && !pyTruthyL args.version then RRes.err Err.assertionError σ
  else if pyTruthyL args.version && !pyTruthyS args.package then RRes.err Err.assertionError σ
  else if pyTruthyS args.package then
    match dictGet (args.package.getD "") packages with
    | some pkg => change_version cfg pkg (args.version.getD []) args.dry σ
    | none => RRes.err (Err.keyError (args.package.getD "")) σ
  else update_versions cfg (packages.map Prod.snd) args.dry σ

/-! ### The registry -/

/-- Modelled from the spec: the module `versions` (code of this
repository that is not under `src/`) exposes the four current-version
constants imported at the top of the script; the spec says the registry
"is rebuilt from current source-of-truth version constants each run", so
they are parameters of the registry here. -/
structure VersionConstants where
  JUPYTER_LSP_VERSION : Str
  JUPYTERLAB_LSP_VERSION : Str
  JUPYTERLAB_VERSION : Str
  REQUIRED_JUPYTERLAB : Str

/-- The `packages/metapackage/package.json`. -/
def META_PACKAGE : String := "packages/metapackage/package.json"

/-- The `packages/jupyterlab-lsp/package.json`. -/
def JUPYTERLAB_LSP_PACKAGE : String := "packages/jupyterlab-lsp/package.json"

/-- The `README.md`. -/
def README : String := "README.md"

/-- The `'"version": "\x7bversion\x7d"'`. -/
def NPM_PACKAGE_VERSION_TEMPLATE : Str :=
  "\"version\": \"\x7bversion\x7d\"".toList

/-- The `PACKAGES` registry, in source order. -/
def PACKAGES (v : VersionConstants) (cfg : Config) :
    List (String × PackageVersionInfo) :=
  [("jupyter-lsp",
    { name := "jupyter-lsp (Python backend)".toList
      current_version := v.JUPYTER_LSP_VERSION
      locations :=
        [{ path := "python_packages/jupyter_lsp/jupyter_lsp/_version.py"
           template := "__version__ = \"\x7bversion\x7d\"".toList },
         { path := cfg.pipeline
           template := "PY_JLSP_VERSION: \x7bversion\x7d".toList }] }),
   ("jupyterlab-lsp",
    { name := "jupyterlab-lsp (frontend package)".toList
      current_version := v.JUPYTERLAB_LSP_VERSION
      locations :=
        [{ path := JUPYTERLAB_LSP_PACKAGE
           template := NPM_PACKAGE_VERSION_TEMPLATE },
         { path := cfg.pipeline
           template := "JS_JLLSP_VERSION: \x7bversion\x7d".toList },
         { path := META_PACKAGE
           template := NPM_PACKAGE_VERSION_TEMPLATE }] }),
   ("jupyterlab:exact",
    { name := "JupyterLab - exact".toList
      current_version := v.JUPYTERLAB_VERSION
      locations :=
        [{ path := JUPYTERLAB_LSP_PACKAGE
           template := "\"@jupyterlab/application\": \"~\x7bversion\x7d\"".toList }] }),
   ("jupyterlab:range",
    { name := "JupyterLab - range".toList
      current_version := v.REQUIRED_JUPYTERLAB
      locations :=
        [{ path := "binder/environment.yml"
           template := "jupyterlab \x7bversion\x7d".toList },
         { path := README
           template := "jupyterlab \x7bversion\x7d".toList },
         { path := README
           template := "JupyterLab \x7bversion\x7d".toList }] })]

/-! ### Properties of `strip` -/

/-- A whitespace-only string strips to empty. -/
theorem strip_eq_nil_of_all_space (l : Str) (h : l.all pyIsSpace = true) :
    strip l = [] := by
  have h1 : l.dropWhile pyIsSpace = [] := by
    rw [List.dropWhile_eq_nil_iff]
    intro x hx
    exact List.all_eq_true.mp h x hx
  rw [strip, h1]
  simp

/-- A non-empty `dropWhile` keeps the last element. -/
theorem getLast_dropWhile (p : Char → Bool) :
    ∀ l : Str, l.dropWhile p ≠ [] → (l.dropWhile p).getLast? = l.getLast? := by
  intro l
  induction l with
  | nil => intro h; simp at h
  | cons x xs ih =>
    intro h
    by_cases hx : p x
    · rw [List.dropWhile_cons_of_pos hx] at h ⊢
      have hxs : xs ≠ [] := by
        rintro rfl
        simp at h
      rw [ih h]
      cases xs with
      | nil => exact absurd rfl hxs
      | cons y ys => rw [List.getLast?_cons_cons]
    · rw [List.dropWhile_cons_of_neg hx]

/-- The first character of a stripped string is never whitespace. -/
theorem strip_head_not_space (l : Str) (c : Char)
    (h : (strip l).head? = some c) : pyIsSpace c = false := by
  rw [strip, List.head?_reverse] at h
  have hne : (l.dropWhile pyIsSpace).reverse.dropWhile pyIsSpace ≠ [] := by
    intro h0
    rw [h0] at h
    simp at h
  rw [getLast_dropWhile _ _ hne, List.getLast?_reverse] at h
  have hd := List.head?_dropWhile_not pyIsSpace l
  rw [h] at hd
  exact hd

/-- The final character of a stripped string is never whitespace. -/
theorem strip_getLast_not_space (l : Str) (c : Char)
    (h : (strip l).getLast? = some c) : pyIsSpace c = false := by
  rw [strip, List.getLast?_reverse] at h
  have hd := List.head?_dropWhile_not pyIsSpace (l.dropWhile pyIsSpace).reverse
  rw [h] at hd
  exact hd

/-! ### Clean occurrences -/

/-- The rendering of the old version occurs in `content` exactly once and
cleanly: the content splits as `a ++ oldR ++ b` with no occurrence of
`oldR` starting earlier and none inside `b`, and — well-formedness — the
replaced content carries no occurrence of `oldR` either. -/
structure CleanUpdate (oldR newR content a b : Str) : Prop where
  split : content = a ++ oldR ++ b
  first : ¬ oldR <:+: (a ++ oldR.dropLast)
  last : ¬ oldR <:+: b
  wf : ¬ oldR <:+: (a ++ newR ++ b)

/-- Replacing a clean unique occurrence rewrites exactly it. -/
theorem computeNewContent_clean (template old new content a b : Str)
    (h : CleanUpdate (formatVersion template old) (formatVersion template new)
      content a b) :
    computeNewContent template old new content =
      a ++ formatVersion template new ++ b := by
  rw [h.split, computeNewContent]
  exact pyReplace_single _ _ a b h.first h.last

/-- When the old rendering does not occur, the computed content is
unchanged. -/
theorem computeNewContent_noop (template old new content : Str)
    (habs : ¬ formatVersion template old <:+: content) :
    computeNewContent template old new content = content := by
  have hne : formatVersion template old ≠ [] := by
    rintro h0
    rw [h0] at habs
    exact habs List.nil_infix
  rw [computeNewContent, pyReplace, if_neg (by simpa using hne)]
  exact pyReplaceCore_noOccurrence _ _ content habs

/-! ### Behaviour of `replace_version` -/

/-- A non-dry `replace_version` on an existing file writes the replaced
content. -/
theorem replace_version_write (path : String) (template old new : Str)
    (σ : Sys) (content : Str) (hfile : σ.fs path = some content) :
    replace_version path template old new false σ =
      RRes.ok (writeText path (computeNewContent template old new content)
        { σ with reads := σ.reads ++ [path] }) := by
  simp [replace_version, readText, hfile]

/-- A dry `replace_version` on an existing file prints the summary header
and the context diff and stops. -/
theorem replace_version_dry_eq (path : String) (template old new : Str)
    (σ : Sys) (content : Str) (hfile : σ.fs path = some content) :
    replace_version path template old new true σ =
      RRes.ok (printLine (List.intercalate nlStr
          (contextDiff (splitlines content)
            (splitlines (computeNewContent template old new content))
            "current".toList "new (proposed update)".toList 4) ++ nlStr)
        (printLine ("\n## Summary of changes proposed to ".toList ++ path.toList)
          { σ with reads := σ.reads ++ [path] })) := by
  simp [replace_version, readText, hfile]

/-- Rewriting a file with its own content leaves the file map intact. -/
theorem writeText_same (path : String) (σ : Sys) (content : Str)
    (hfile : σ.fs path = some content) :
    (writeText path content σ).fs = σ.fs := by
  funext q
  simp only [writeText]
  by_cases hq : q = path
  · subst hq; simp [hfile]
  · simp [hq]

/-- Shared helper: when the old rendering does not occur in the file, the
call succeeds and the file map is unchanged (the non-dry mode still
rewrites the file, but with identical content; the dry mode only
prints). -/
theorem replace_version_noop_aux (path : String) (template old new : Str)
    (dry : Bool) (σ : Sys) (content : Str)
    (hfile : σ.fs path = some content)
    (habs : ¬ formatVersion template old <:+: content) :
    ∃ σ', replace_version path template old new dry σ = RRes.ok σ' ∧
      σ'.fs = σ.fs := by
  cases dry with
  | true => exact ⟨_, replace_version_dry_eq path template old new σ content hfile, rfl⟩
  | false =>
    refine ⟨_, replace_version_write path template old new σ content hfile, ?_⟩
    rw [computeNewContent_noop template old new content habs]
    exact writeText_same path _ content hfile

/-- A dry `replace_version` never changes the file map or the write
trace. -/
theorem replace_version_dry_state (path : String) (template old new : Str)
    (σ : Sys) :
    (replace_version path template old new true σ).state.fs = σ.fs ∧
    (replace_version path template old new true σ).state.writes = σ.writes := by
  cases hfile : σ.fs path with
  | none =>
    simp [replace_version, readText, hfile, RRes.state]
  | some content =>
    rw [replace_version_dry_eq path template old new σ content hfile]
    exact ⟨rfl, rfl⟩

/-! ### Behaviour of the location loop -/

/-- Shared helper: a dry location loop never changes the file map or the
write trace. -/
theorem changeLocations_dry_state (old new : Str) :
    ∀ (locs : List VersionLocation) (σ : Sys),
      (changeLocations old new true locs σ).state.fs = σ.fs ∧
      (changeLocations old new true locs σ).state.writes = σ.writes := by
  intro locs
  induction locs with
  | nil => intro σ; exact ⟨rfl, rfl⟩
  | cons loc rest ih =>
    intro σ
    have h := replace_version_dry_state loc.path loc.template old new σ
    simp only [changeLocations]
    cases hrv : replace_version loc.path loc.template old new true σ with
    | ok σ' =>
      rw [hrv] at h
      simp only [RRes.state] at h
      obtain ⟨h1, h2⟩ := ih σ'
      exact ⟨h1.trans h.1, h2.trans h.2⟩
    | err e σ' =>
      rw [hrv] at h
      exact h

/-- Shared helper: when no location's old rendering occurs in its file,
the loop succeeds and the file map is unchanged. -/
theorem changeLocations_noop (old new : Str) (dry : Bool) :
    ∀ (locs : List VersionLocation) (σ : Sys),
      (∀ loc ∈ locs, ∃ c, σ.fs loc.path = some c ∧
        ¬ formatVersion loc.template old <:+: c) →
      ∃ σ', changeLocations old new dry locs σ = RRes.ok σ' ∧ σ'.fs = σ.fs := by
  intro locs
  induction locs with
  | nil => intro σ _; exact ⟨σ, rfl, rfl⟩
  | cons loc rest ih =>
    intro σ hall
    obtain ⟨c, hc, habs⟩ := hall loc (by simp)
    obtain ⟨σ1, h1, hfs1⟩ :=
      replace_version_noop_aux loc.path loc.template old new dry σ c hc habs
    obtain ⟨σ2, h2, hfs2⟩ := ih σ1 (fun l hl => by
      obtain ⟨c', hc', habs'⟩ := hall l (List.mem_cons_of_mem _ hl)
      exact ⟨c', by rw [hfs1]; exact hc', habs'⟩)
    refine ⟨σ2, ?_, hfs2.trans hfs1⟩
    simp only [changeLocations, h1]
    exact h2

/-- Shared helper: the non-dry loop under clean unique occurrences and
distinct paths: success, every location file rewritten to its cleanly
replaced content, every other file untouched. -/
theorem changeLocations_clean (old new : Str) :
    ∀ (locs : List VersionLocation) (σ : Sys),
      (locs.map VersionLocation.path).Nodup →
      (∀ loc ∈ locs, ∃ content a b, σ.fs loc.path = some content ∧
        CleanUpdate (formatVersion loc.template old) (formatVersion loc.template new)
          content a b) →
      ∃ σ', changeLocations old new false locs σ = RRes.ok σ' ∧
        (∀ loc ∈ locs, ∃ a b,
          σ'.fs loc.path = some (a ++ formatVersion loc.template new ++ b) ∧
          ¬ formatVersion loc.template old <:+:
            (a ++ formatVersion loc.template new ++ b)) ∧
        (∀ p : String, p ∉ locs.map VersionLocation.path → σ'.fs p = σ.fs p) := by
  intro locs
  induction locs with
  | nil =>
    intro σ _ _
    exact ⟨σ, rfl, by simp, fun p _ => rfl⟩
  | cons loc rest ih =>
    intro σ hnd hall
    obtain ⟨content, a, b, hc, hcu⟩ := hall loc (by simp)
    have hnd' : (loc.path ∉ rest.map VersionLocation.path) ∧
        (rest.map VersionLocation.path).Nodup := by
      rw [List.map_cons, List.nodup_cons] at hnd
      exact hnd
    have hw : replace_version loc.path loc.template old new false σ =
        RRes.ok (writeText loc.path (a ++ formatVersion loc.template new ++ b)
          { σ with reads := σ.reads ++ [loc.path] }) := by
      rw [replace_version_write loc.path loc.template old new σ content hc,
        computeNewContent_clean _ _ _ _ _ _ hcu]
    set σ1 := writeText loc.path (a ++ formatVersion loc.template new ++ b)
      { σ with reads := σ.reads ++ [loc.path] } with hσ1
    have hface : σ1.fs loc.path = some (a ++ formatVersion loc.template new ++ b) := by
      simp [hσ1, writeText]
    have hother : ∀ p, p ≠ loc.path → σ1.fs p = σ.fs p := by
      intro p hp
      simp [hσ1, writeText, hp]
    obtain ⟨σ2, h2, hconc, hframe⟩ := ih σ1 hnd'.2 (fun l hl => by
      obtain ⟨c', a', b', hc', hcu'⟩ := hall l (List.mem_cons_of_mem _ hl)
      have hlp : l.path ≠ loc.path := by
        intro h0
        exact hnd'.1 (h0 ▸ List.mem_map_of_mem VersionLocation.path hl)
      exact ⟨c', a', b', (hother l.path hlp).trans hc', hcu'⟩)
    refine ⟨σ2, ?_, ?_, ?_⟩
    · simp only [changeLocations, hw]
      exact h2
    · intro l hl
      rcases List.mem_cons.mp hl with rfl | hl'
      · exact ⟨a, b, (hframe l.path hnd'.1).trans hface, hcu.wf⟩
      · exact hconc l hl'
    · intro p hp
      rw [List.map_cons, List.mem_cons] at hp
      push_neg at hp
      exact (hframe p hp.2).trans (hother p hp.1)

/-! ### The claims -/

/-- C1 (amended): for a package whose location paths are pairwise
distinct and a new version present in the changelog, a non-dry
`change_version` succeeds and afterwards every location file of the
package contains the template rendered with the new version and no
longer contains the template rendered with the current version — under
the hypothesis that the old rendering was present, unique and
well-formed in each location file.  The distinctness proviso is forced:
a package listing the same file twice (the registry's `jupyterlab:range`
does) can re-create an earlier location's old rendering. -/
theorem change_version_updates_locations (cfg : Config)
    (pkg : PackageVersionInfo) (newv : Str) (σ : Sys) (cl : Str)
    (hcl : σ.fs cfg.changelog = some cl)
    (hin : newv <:+: cl)
    (hnd : (pkg.locations.map VersionLocation.path).Nodup)
    (hclean : ∀ loc ∈ pkg.locations, ∃ content a b,
      σ.fs loc.path = some content ∧
      CleanUpdate (formatVersion loc.template pkg.current_version)
        (formatVersion loc.template newv) content a b) :
    ∃ σ', change_version cfg pkg newv false σ = RRes.ok σ' ∧
      ∀ loc ∈ pkg.locations, ∃ content',
        σ'.fs loc.path = some content' ∧
        formatVersion loc.template newv <:+: content' ∧
        ¬ formatVersion loc.template pkg.current_version <:+: content' := by
  simp only [change_version, readText, hcl, if_pos hin]
  obtain ⟨σ', h, hconc, -⟩ := changeLocations_clean pkg.current_version newv
    pkg.locations { σ with reads := σ.reads ++ [cfg.changelog] } hnd
    (fun loc hl => hclean loc hl)
  refine ⟨σ', h, fun loc hl => ?_⟩
  obtain ⟨a, b, hfs, hni⟩ := hconc loc hl
  exact ⟨_, hfs, ⟨a, b, rfl⟩, hni⟩

/-- C2: the substitution computes the new content as the file text with
every occurrence of the template rendered with the old version replaced
by the template rendered with the new version — all occurrences, not
just the first: the content splits at every occurrence of the old
rendering and is rejoined with the new rendering. -/
theorem computeNewContent_replaces_all (template old new content : Str)
    (hne : formatVersion template old ≠ []) :
    computeNewContent template old new content =
      List.intercalate (formatVersion template new)
        (pySplit (formatVersion template old) content) := by
  rw [computeNewContent, pyReplace, if_neg (by simpa using hne)]
  exact pyReplaceCore_eq_intercalate _ _ hne content

/-- C3: when the new version is not a substring of the changelog,
`change_version` raises the missing-changelog-entry error with only the
changelog read: no location file is read, written or changed. -/
theorem change_version_guard_blocks (cfg : Config) (pkg : PackageVersionInfo)
    (newv : Str) (dry : Bool) (σ : Sys) (cl : Str)
    (hcl : σ.fs cfg.changelog = some cl)
    (habs : ¬ newv <:+: cl) :
    change_version cfg pkg newv dry σ =
      RRes.err (Err.missingChangelog newv)
        { σ with reads := σ.reads ++ [cfg.changelog] } := by
  simp only [change_version, readText, hcl, if_neg habs]

/-- C4: a dry run never changes any file's content and records no write,
for a whole `change_version` of any package and version and for any
single `replace_version`. -/
theorem dry_run_never_writes (cfg : Config) (pkg : PackageVersionInfo)
    (newv : Str) (σ : Sys) :
    ((change_version cfg pkg newv true σ).state.fs = σ.fs ∧
     (change_version cfg pkg newv true σ).state.writes = σ.writes) ∧
    (∀ (path : String) (template old new : Str) (σ0 : Sys),
      (replace_version path template old new true σ0).state.fs = σ0.fs ∧
      (replace_version path template old new true σ0).state.writes = σ0.writes) := by
  refine ⟨?_, fun path template old new σ0 =>
    replace_version_dry_state path template old new σ0⟩
  cases hcl : σ.fs cfg.changelog with
  | none => simp [change_version, readText, hcl, RRes.state]
  | some cl =>
    by_cases hin : newv <:+: cl
    · simp only [change_version, readText, hcl, if_pos hin]
      exact changeLocations_dry_state pkg.current_version newv pkg.locations _
    · simp only [change_version, readText, hcl, if_neg hin]
      exact ⟨rfl, rfl⟩

/-- C5: when the template rendered with the old version does not occur in
the target file, `replace_version` raises no error and leaves the file
map unchanged — a silent no-op rather than a match failure. -/
theorem replace_version_silent_noop (path : String) (template old new : Str)
    (dry : Bool) (σ : Sys) (content : Str)
    (hfile : σ.fs path = some content)
    (habs : ¬ formatVersion template old <:+: content) :
    ∃ σ', replace_version path template old new dry σ = RRes.ok σ' ∧
      σ'.fs = σ.fs :=
  replace_version_noop_aux path template old new dry σ content hfile habs

/-- C6: single-package mode with an unknown registry key raises the
lookup failure with the state — including the read and write traces —
untouched: no file input or output happens before the failure. -/
theorem unknown_key_no_io (cfg : Config)
    (packages : List (String × PackageVersionInfo)) (args : Args) (σ : Sys)
    (key : String)
    (hp : args.package = some key) (hk : key ≠ "")
    (hv : pyTruthyL args.version = true)
    (habsent : dictGet key packages = none) :
    mainRun cfg packages args σ = RRes.err (Err.keyError key) σ := by
  have hts : pyTruthyS (some key) = true := by
    rw [pyTruthyS]
    simpa using hk
  simp [mainRun, hp, hts, hv, habsent]

/-- C7 (amended): for a package whose location paths are pairwise
distinct (and distinct from the changelog), re-applying the same
successful version change a second time raises no error and changes no
file content, since the old rendering no longer occurs in the
already-updated files.  The distinctness proviso is forced: with
duplicate location paths the first run can leave an old rendering
behind, which the second run then replaces. -/
theorem change_version_idempotent (cfg : Config) (pkg : PackageVersionInfo)
    (newv : Str) (σ : Sys) (cl : Str)
    (hcl : σ.fs cfg.changelog = some cl)
    (hin : newv <:+: cl)
    (hnd : (pkg.locations.map VersionLocation.path).Nodup)
    (hsep : cfg.changelog ∉ pkg.locations.map VersionLocation.path)
    (hclean : ∀ loc ∈ pkg.locations, ∃ content a b,
      σ.fs loc.path = some content ∧
      CleanUpdate (formatVersion loc.template pkg.current_version)
        (formatVersion loc.template newv) content a b) :
    ∃ σ1, change_version cfg pkg newv false σ = RRes.ok σ1 ∧
      ∃ σ2, change_version cfg pkg newv false σ1 = RRes.ok σ2 ∧
        σ2.fs = σ1.fs := by
  simp only [change_version, readText, hcl, if_pos hin]
  obtain ⟨σ1, h1, hconc, hframe⟩ := changeLocations_clean pkg.current_version newv
    pkg.locations { σ with reads := σ.reads ++ [cfg.changelog] } hnd
    (fun loc hl => hclean loc hl)
  refine ⟨σ1, h1, ?_⟩
  have hcl1 : σ1.fs cfg.changelog = some cl := by
    rw [hframe cfg.changelog hsep]
    exact hcl
  simp only [change_version, readText, hcl1, if_pos hin]
  obtain ⟨σ2, h2, hfs2⟩ := changeLocations_noop pkg.current_version newv false
    pkg.locations { σ1 with reads := σ1.reads ++ [cfg.changelog] } (fun loc hl => by
      obtain ⟨a, b, hfs, hni⟩ := hconc loc hl
      exact ⟨_, hfs, hni⟩)
  exact ⟨σ2, h2, hfs2⟩

/-- The two chunks printed for each visited-then-skipped package: its
current-version line and the prompt. -/
def skipTrace (pkgs : List PackageVersionInfo) : List Str :=
  pkgs.flatMap fun p => [currentLine p ++ nlStr, promptOut]

/-- C8: interactive mode visits every package in registry order; for
each it prints the display name and current version and prompts; an
empty (stripped) response skips the package with no further effect,
and a non-empty one invokes the substitution engine on the package with
the given dry flag. -/
theorem update_versions_interactive (cfg : Config) (dry : Bool) :
    (∀ (pkgs : List PackageVersionInfo) (σ : Sys) (resps rest : List Str),
      σ.stdin = resps ++ rest → resps.length = pkgs.length →
      (∀ r ∈ resps, strip r = []) →
      update_versions cfg pkgs dry σ =
        RRes.ok { σ with stdin := rest, out := σ.out ++ skipTrace pkgs }) ∧
    (∀ (pkg : PackageVersionInfo) (rest : List PackageVersionInfo)
        (line : Str) (stdin' : List Str) (σ : Sys),
      σ.stdin = line :: stdin' → strip line ≠ [] →
      update_versions cfg (pkg :: rest) dry σ =
        match change_version cfg pkg (strip line) dry
            { σ with stdin := stdin',
                     out := σ.out ++ [currentLine pkg ++ nlStr, promptOut] } with
        | RRes.ok σ' => update_versions cfg rest dry σ'
        | RRes.err e σ' => RRes.err e σ') := by
  constructor
  · intro pkgs
    induction pkgs with
    | nil =>
      intro σ resps rest hstdin hlen hskip
      have hr : resps = [] := List.length_eq_zero.mp hlen
      subst hr
      simp only [List.nil_append] at hstdin
      cases σ
      simp_all [update_versions, skipTrace]
    | cons pkg rest' ih =>
      intro σ resps rest hstdin hlen hskip
      cases resps with
      | nil => simp at hlen
      | cons r resps' =>
        have hs : strip r = [] := hskip r (by simp)
        have hstdin' : σ.stdin = r :: (resps' ++ rest) := by simpa using hstdin
        have hmcv : maybe_change_version cfg pkg dry σ = RRes.ok
            { σ with stdin := resps' ++ rest,
                     out := σ.out ++ [currentLine pkg ++ nlStr, promptOut] } := by
          simp [maybe_change_version, inputLine, printLine, hstdin', hs]
        simp only [update_versions, hmcv]
        rw [ih _ resps' rest rfl (by simpa using hlen)
          (fun x hx => hskip x (List.mem_cons_of_mem _ hx))]
        simp [skipTrace]
  · intro pkg rest line stdin' σ hstdin hne
    have hmcv : maybe_change_version cfg pkg dry σ =
        change_version cfg pkg (strip line) dry
          { σ with stdin := stdin',
                   out := σ.out ++ [currentLine pkg ++ nlStr, promptOut] } := by
      simp [maybe_change_version, inputLine, printLine, hstdin, hne]
    simp only [update_versions, hmcv]

/-- C10: the typed response is stripped before the emptiness check, so a
whitespace-only response also skips the package; a stripped response
never starts or ends with whitespace, and it is exactly what a non-empty
response passes to the substitution engine. -/
theorem response_stripping (cfg : Config) (dry : Bool) :
    (∀ (pkg : PackageVersionInfo) (σ : Sys) (line : Str) (rest : List Str),
      σ.stdin = line :: rest → line.all pyIsSpace = true →
      maybe_change_version cfg pkg dry σ =
        RRes.ok { σ with stdin := rest,
                         out := σ.out ++ [currentLine pkg ++ nlStr, promptOut] }) ∧
    (∀ (line : Str) (c : Char),
      ((strip line).head? = some c → pyIsSpace c = false) ∧
      ((strip line).getLast? = some c → pyIsSpace c = false)) ∧
    (∀ (pkg : PackageVersionInfo) (σ : Sys) (line : Str) (rest : List Str),
      σ.stdin = line :: rest → strip line ≠ [] →
      maybe_change_version cfg pkg dry σ =
        change_version cfg pkg (strip line) dry
          { σ with stdin := rest,
                   out := σ.out ++ [currentLine pkg ++ nlStr, promptOut] }) := by
  refine ⟨?_, ?_, ?_⟩
  · intro pkg σ line rest hstdin hsp
    have hs : strip line = [] := strip_eq_nil_of_all_space line hsp
    simp [maybe_change_version, inputLine, printLine, hstdin, hs]
  · intro line c
    exact ⟨strip_head_not_space line c, strip_getLast_not_space line c⟩
  · intro pkg σ line rest hstdin hne
    simp [maybe_change_version, inputLine, printLine, hstdin, hne]

/-- C9 (amended): the dry-run preview printed for a location is the
summary header followed by the context-format diff — the library's
`context_diff` with four lines of context — between the old and the new
file content, joined by newlines; it is not a unified-style diff. -/
theorem dry_run_preview_context_format (path : String) (template old new : Str)
    (σ : Sys) (content : Str) (hfile : σ.fs path = some content) :
    (replace_version path template old new true σ).state.out =
      σ.out ++
        ["\n## Summary of changes proposed to ".toList ++ path.toList ++ nlStr,
         List.intercalate nlStr
             (contextDiff (splitlines content)
               (splitlines (computeNewContent template old new content))
               "current".toList "new (proposed update)".toList 4) ++ nlStr ++ nlStr] := by
  rw [replace_version_dry_eq path template old new σ content hfile]
  simp [printLine, RRes.state]

/-! ### Concrete fixtures for witnesses -/

/-- The version-file path of the `jupyter-lsp` package. -/
def pyVersionPath : String := "python_packages/jupyter_lsp/jupyter_lsp/_version.py"

/-- A concrete pipeline path. -/
def pipelinePathEx : String := ".github/workflows/job.test.yml"

/-- A concrete configuration. -/
def cfgEx : Config := { changelog := "CHANGELOG.md", pipeline := pipelinePathEx }

/-- Concrete version constants matching the end-to-end example of the
spec. -/
def vcEx : VersionConstants :=
  { JUPYTER_LSP_VERSION := "2.0.0".toList
    JUPYTERLAB_LSP_VERSION := "5.0.0".toList
    JUPYTERLAB_VERSION := "4.1.0".toList
    REQUIRED_JUPYTERLAB := ">=4.1.0,<5".toList }

/-- A concrete filesystem: a changelog mentioning `2.0.1`, the version
and pipeline files of `jupyter-lsp` at version `2.0.0`, and a readme. -/
def fsEx : String → Option Str := fun p =>
  if p = "CHANGELOG.md" then some "## 2.0.1\n- fixed\n## 2.0.0\n".toList
  else if p = pyVersionPath then some "__version__ = \"2.0.0\"\n".toList
  else if p = pipelinePathEx then some "env:\n  PY_JLSP_VERSION: 2.0.0\n".toList
  else if p = README then some "requires JupyterLab 4\n".toList
  else none

/-- The starting state of the witnesses. -/
def sysEx : Sys := { fs := fsEx, stdin := [], out := [], reads := [], writes := [] }

/-- The state with one whitespace-only pending response. -/
def sysWsEx : Sys := { sysEx with stdin := [" \t ".toList] }

/-- The state with one pending three-space response. -/
def sysSkipEx : Sys := { sysEx with stdin := ["   ".toList] }

/-- The `jupyter-lsp` entry of the registry at the example constants. -/
def pkgEx : PackageVersionInfo :=
  { name := "jupyter-lsp (Python backend)".toList
    current_version := "2.0.0".toList
    locations :=
      [{ path := pyVersionPath
         template := "__version__ = \"\x7bversion\x7d\"".toList },
       { path := pipelinePathEx
         template := "PY_JLSP_VERSION: \x7bversion\x7d".toList }] }

/-- The `jupyterlab:range` registry entry at current version `4`: two of
its three locations share the `README.md` path. -/
def pkgRangeEx : PackageVersionInfo :=
  { name := "JupyterLab - range".toList
    current_version := "4".toList
    locations :=
      [{ path := "binder/environment.yml"
         template := "jupyterlab \x7bversion\x7d".toList },
       { path := README
         template := "jupyterlab \x7bversion\x7d".toList },
       { path := README
         template := "JupyterLab \x7bversion\x7d".toList }] }

/-- A filesystem for the duplicate-path counterexamples: the changelog
mentions the new version `7 jupyterlab`, and each location's old
rendering is present, unique and well-formed in its file. -/
def fsRangeEx : String → Option Str := fun p =>
  if p = "CHANGELOG.md" then some "Bump to 7 jupyterlab\n".toList
  else if p = "binder/environment.yml" then some "  - jupyterlab 4\n".toList
  else if p = README then some "jupyterlab 4 zz JupyterLab 4 4 end".toList
  else none

/-- The starting state of the duplicate-path counterexamples. -/
def sysRangeEx : Sys :=
  { fs := fsRangeEx, stdin := [], out := [], reads := [], writes := [] }

/-- Counterexample for C1: the claim fails on a package listing the same
file at two locations, as the registry's `jupyterlab:range` does with
`README.md`.  At this concrete input the new version is in the
changelog and every location's old rendering is present, unique and
well-formed in its file, yet after the error-free run the README still
contains the old rendering `jupyterlab 4` of its second location — the
third location's replacement re-created it. -/
theorem change_version_updates_locations_counterexample :
    ("7 jupyterlab".toList <:+: "Bump to 7 jupyterlab\n".toList) ∧
    sysRangeEx.fs cfgEx.changelog = some "Bump to 7 jupyterlab\n".toList ∧
    (∀ loc ∈ pkgRangeEx.locations, ∃ content a b,
      sysRangeEx.fs loc.path = some content ∧
      CleanUpdate (formatVersion loc.template pkgRangeEx.current_version)
        (formatVersion loc.template "7 jupyterlab".toList) content a b) ∧
    (change_version cfgEx pkgRangeEx "7 jupyterlab".toList false sysRangeEx).isOk
      = true ∧
    ∃ loc ∈ pkgRangeEx.locations, ∃ content',
      (change_version cfgEx pkgRangeEx "7 jupyterlab".toList false
        sysRangeEx).state.fs loc.path = some content' ∧
      formatVersion loc.template pkgRangeEx.current_version <:+: content' := by
  refine ⟨by decide, by decide, ?_, by decide, ?_⟩
  · intro loc hl
    simp only [pkgRangeEx, List.mem_cons, List.not_mem_nil, or_false] at hl
    rcases hl with rfl | rfl | rfl
    · exact ⟨"  - jupyterlab 4\n".toList, "  - ".toList, "\n".toList, by decide,
        ⟨by decide, by decide, by decide, by decide⟩⟩
    · exact ⟨"jupyterlab 4 zz JupyterLab 4 4 end".toList, [],
        " zz JupyterLab 4 4 end".toList, by decide,
        ⟨by decide, by decide, by decide, by decide⟩⟩
    · exact ⟨"jupyterlab 4 zz JupyterLab 4 4 end".toList,
        "jupyterlab 4 zz ".toList, " 4 end".toList, by decide,
        ⟨by decide, by decide, by decide, by decide⟩⟩
  · exact ⟨{ path := README, template := "jupyterlab \x7bversion\x7d".toList },
      by decide,
      "jupyterlab 7 jupyterlab zz JupyterLab 7 jupyterlab 4 end".toList,
      by decide, by decide⟩

/-- Counterexample for C7: re-applying the same successful version
change is not a no-op on a package listing the same file at two
locations.  The first run of the `jupyterlab:range`-shaped package
succeeds and leaves an old rendering in the README (see the C1
counterexample); with the changelog still containing the version, the
second run also raises no error but mutates the README again. -/
theorem change_version_idempotent_counterexample :
    (change_version cfgEx pkgRangeEx "7 jupyterlab".toList false sysRangeEx).isOk
      = true ∧
    (change_version cfgEx pkgRangeEx "7 jupyterlab".toList false
      sysRangeEx).state.fs cfgEx.changelog = some "Bump to 7 jupyterlab\n".toList ∧
    (change_version cfgEx pkgRangeEx "7 jupyterlab".toList false
      (change_version cfgEx pkgRangeEx "7 jupyterlab".toList false
        sysRangeEx).state).isOk = true ∧
    (change_version cfgEx pkgRangeEx "7 jupyterlab".toList false
      (change_version cfgEx pkgRangeEx "7 jupyterlab".toList false
        sysRangeEx).state).state.fs README ≠
      (change_version cfgEx pkgRangeEx "7 jupyterlab".toList false
        sysRangeEx).state.fs README := by
  exact ⟨by decide, by decide, by decide, by decide⟩

/-- Counterexample for C9: at a concrete dry run the printed preview is
not the unified-style diff of the old and new content (the program
prints a context-format diff instead). -/
theorem dry_run_preview_not_unified :
    (replace_version pyVersionPath "__version__ = \"\x7bversion\x7d\"".toList
        "2.0.0".toList "2.0.1".toList true sysEx).state.out ≠
      sysEx.out ++
        ["\n## Summary of changes proposed to ".toList ++ pyVersionPath.toList ++ nlStr,
         List.intercalate nlStr
             (unifiedDiff (splitlines "__version__ = \"2.0.0\"\n".toList)
               (splitlines (computeNewContent "__version__ = \"\x7bversion\x7d\"".toList
                 "2.0.0".toList "2.0.1".toList "__version__ = \"2.0.0\"\n".toList))
               "current".toList "new (proposed update)".toList 4) ++ nlStr ++ nlStr] := by
  decide

/-! ### Witnesses -/

/-- Witness for C1: the end-to-end example of the spec — bumping
`jupyter-lsp` from `2.0.0` to `2.0.1` rewrites both location files. -/
theorem change_version_updates_locations_witness :
    ∃ σ', change_version cfgEx pkgEx "2.0.1".toList false sysEx = RRes.ok σ' ∧
      ∀ loc ∈ pkgEx.locations, ∃ content',
        σ'.fs loc.path = some content' ∧
        formatVersion loc.template "2.0.1".toList <:+: content' ∧
        ¬ formatVersion loc.template pkgEx.current_version <:+: content' := by
  apply change_version_updates_locations cfgEx pkgEx "2.0.1".toList sysEx
    "## 2.0.1\n- fixed\n## 2.0.0\n".toList (by decide) (by decide) (by decide)
  intro loc hl
  simp only [pkgEx, List.mem_cons, List.not_mem_nil, or_false] at hl
  rcases hl with rfl | rfl
  · exact ⟨"__version__ = \"2.0.0\"\n".toList, [], "\n".toList, by decide,
      ⟨by decide, by decide, by decide, by decide⟩⟩
  · exact ⟨"env:\n  PY_JLSP_VERSION: 2.0.0\n".toList, "env:\n  ".toList, "\n".toList,
      by decide, ⟨by decide, by decide, by decide, by decide⟩⟩

/-- Witness for C2 at a concrete input with two occurrences, one inside
unrelated text. -/
theorem computeNewContent_replaces_all_witness :
    formatVersion "v \x7bversion\x7d".toList "1.0".toList ≠ [] ∧
    computeNewContent "v \x7bversion\x7d".toList "1.0".toList "2.0".toList
        "v 1.0 and xv 1.0y".toList =
      List.intercalate (formatVersion "v \x7bversion\x7d".toList "2.0".toList)
        (pySplit (formatVersion "v \x7bversion\x7d".toList "1.0".toList)
          "v 1.0 and xv 1.0y".toList) :=
  ⟨by decide, computeNewContent_replaces_all _ _ _ _ (by decide)⟩

/-- Witness for C3: a version absent from the changelog raises the guard
error and leaves the state untouched but for the changelog read. -/
theorem change_version_guard_blocks_witness :
    change_version cfgEx pkgEx "9.9.9".toList false sysEx =
      RRes.err (Err.missingChangelog "9.9.9".toList)
        { sysEx with reads := sysEx.reads ++ [cfgEx.changelog] } :=
  change_version_guard_blocks cfgEx pkgEx "9.9.9".toList false sysEx
    "## 2.0.1\n- fixed\n## 2.0.0\n".toList (by decide) (by decide)

/-- Witness for C5: a README without the old rendering is silently left
as it is. -/
theorem replace_version_silent_noop_witness :
    ∃ σ', replace_version README "JupyterLab \x7bversion\x7d".toList
        "3.0".toList "4.0".toList false sysEx = RRes.ok σ' ∧ σ'.fs = sysEx.fs :=
  replace_version_silent_noop README "JupyterLab \x7bversion\x7d".toList
    "3.0".toList "4.0".toList false sysEx "requires JupyterLab 4\n".toList
    (by decide) (by decide)

/-- Witness for C6: an unknown key against the full registry. -/
theorem unknown_key_no_io_witness :
    mainRun cfgEx (PACKAGES vcEx cfgEx)
      { dry := false, package := some "does-not-exist", version := some "1.0".toList }
      sysEx =
      RRes.err (Err.keyError "does-not-exist") sysEx :=
  unknown_key_no_io cfgEx (PACKAGES vcEx cfgEx) _ sysEx "does-not-exist" rfl
    (by decide) rfl (by decide)

/-- Witness for C7: the example bump applied twice — the second run is
error-free and changes nothing. -/
theorem change_version_idempotent_witness :
    ∃ σ1, change_version cfgEx pkgEx "2.0.1".toList false sysEx = RRes.ok σ1 ∧
      ∃ σ2, change_version cfgEx pkgEx "2.0.1".toList false σ1 = RRes.ok σ2 ∧
        σ2.fs = σ1.fs := by
  apply change_version_idempotent cfgEx pkgEx "2.0.1".toList sysEx
    "## 2.0.1\n- fixed\n## 2.0.0\n".toList (by decide) (by decide) (by decide)
    (by decide)
  intro loc hl
  simp only [pkgEx, List.mem_cons, List.not_mem_nil, or_false] at hl
  rcases hl with rfl | rfl
  · exact ⟨"__version__ = \"2.0.0\"\n".toList, [], "\n".toList, by decide,
      ⟨by decide, by decide, by decide, by decide⟩⟩
  · exact ⟨"env:\n  PY_JLSP_VERSION: 2.0.0\n".toList, "env:\n  ".toList, "\n".toList,
      by decide, ⟨by decide, by decide, by decide, by decide⟩⟩

/-- Witness for C8: a one-package interactive run whose only response is
whitespace — the package is skipped after the two prints. -/
theorem update_versions_interactive_witness :
    update_versions cfgEx [pkgEx] false sysSkipEx =
      RRes.ok { sysSkipEx with
                stdin := []
                out := sysSkipEx.out ++ skipTrace [pkgEx] } :=
  (update_versions_interactive cfgEx false).1 [pkgEx] sysSkipEx
    ["   ".toList] [] (by simp [sysSkipEx, sysEx]) rfl (by decide)

/-- Witness for C9 (amended): the dry-run preview at the example version
file is the context diff of its old and new content. -/
theorem dry_run_preview_context_format_witness :
    (replace_version pyVersionPath "__version__ = \"\x7bversion\x7d\"".toList
        "2.0.0".toList "2.0.1".toList true sysEx).state.out =
      sysEx.out ++
        ["\n## Summary of changes proposed to ".toList ++ pyVersionPath.toList ++ nlStr,
         List.intercalate nlStr
             (contextDiff (splitlines "__version__ = \"2.0.0\"\n".toList)
               (splitlines (computeNewContent "__version__ = \"\x7bversion\x7d\"".toList
                 "2.0.0".toList "2.0.1".toList "__version__ = \"2.0.0\"\n".toList))
               "current".toList "new (proposed update)".toList 4) ++ nlStr ++ nlStr] :=
  dry_run_preview_context_format pyVersionPath _ _ _ sysEx
    "__version__ = \"2.0.0\"\n".toList (by decide)

/-- Witness for C10: a whitespace-only response skips, and the head of a
stripped response is not whitespace. -/
theorem response_stripping_witness :
    maybe_change_version cfgEx pkgEx false sysWsEx =
      RRes.ok { sysWsEx with
                stdin := []
                out := sysWsEx.out ++ [currentLine pkgEx ++ nlStr, promptOut] } ∧
    pyIsSpace '2' = false :=
  ⟨(response_stripping cfgEx false).1 pkgEx sysWsEx " \t ".toList []
      (by simp [sysWsEx, sysEx]) (by decide),
   ((response_stripping cfgEx false).2.1 "  2.0.1 ".toList '2').1 (by decide)⟩

end BumpVersions
